import Mathlib

/-!
Verification of the settings-handler component of the plugit repository
(src/plugit/settingshandler.py), a lib2to3-based format-preserving editor
for Python settings files.

The parse tree model mirrors lib2to3.pytree: composite nodes own a list of
children, atomic leaves carry a token type, their exact source text and the
whitespace text immediately preceding them.  All mutating operations of
settingshandler.py are embedded as pure functions that return the updated
tree together with an optional error (the Python code raises exceptions and
mutates in place; the embedding threads the partially-mutated tree through
explicitly, so partial-application semantics are preserved faithfully).
-/

namespace Plugit

/-! Token type codes, from lib2to3.pgen2.token.  The concrete numbers match
the ones the source relies on (the source itself hard-codes 9/10, 26/27 and
12 in its comments). -/

def tokENDMARKER : Nat := 0
def tokNAME : Nat := 1
def tokNUMBER : Nat := 2
def tokSTRING : Nat := 3
def tokNEWLINE : Nat := 4
def tokLPAR : Nat := 7
def tokRPAR : Nat := 8
def tokLSQB : Nat := 9
def tokRSQB : Nat := 10
def tokCOLON : Nat := 11
def tokCOMMA : Nat := 12
def tokEQUAL : Nat := 22
def tokLBRACE : Nat := 26
def tokRBRACE : Nat := 27

/-! Grammar symbol codes, from lib2to3.pygram.python_symbols.  The numeric
values are generated from the grammar file at runtime; only their
distinctness (and being distinct from token codes) matters here. -/

def symFileInput : Nat := 256
def symSimpleStmt : Nat := 257
def symExprStmt : Nat := 258
def symAtom : Nat := 259
def symTestlistGexp : Nat := 260
def symListmaker : Nat := 261
def symDictsetmaker : Nat := 262

/-- Lossless parse tree, mirroring lib2to3.pytree.  A leaf stores its token
type, its exact source text `val` and the whitespace/comment text `pfx`
immediately preceding it (lib2to3 calls this the prefix). -/
inductive PyTree where
  | leaf (ty : Nat) (val : String) (pfx : String)
  | node (ty : Nat) (children : List PyTree)

/-- The `type` attribute of a lib2to3 node or leaf. -/
def PyTree.type : PyTree → Nat
  | .leaf t _ _ => t
  | .node t _ => t

/-- The `children` attribute: composite nodes expose their children, leaves
have none. -/
def PyTree.childrenOf : PyTree → List PyTree
  | .leaf _ _ _ => []
  | .node _ cs => cs

/-- Whether the tree element is a composite Node (Python
`isinstance(x, Node)`). -/
def PyTree.isNode : PyTree → Bool
  | .node _ _ => true
  | .leaf _ _ _ => false

mutual

/-- Rendering `str(tree)`: a leaf renders as prefix followed by its text, a
node as the concatenation of its rendered children (lib2to3.pytree
`Leaf.__str__` and `Node.__str__`). -/
def PyTree.render : PyTree → String
  | .leaf _ v p => p ++ v
  | .node _ cs => renderList cs

/-- Rendering of a list of sibling trees, in order. -/
def renderList : List PyTree → String
  | [] => ""
  | c :: cs => c.render ++ renderList cs

end

/-- The `prefix` attribute: a leaf returns its own prefix, a node the prefix
of its first child (empty when childless), as in lib2to3.pytree. -/
def PyTree.pfxOf : PyTree → String
  | .leaf _ _ p => p
  | .node _ cs =>
    match cs with
    | [] => ""
    | c :: _ => c.pfxOf

/-- Python values that the settings handler accepts: scalars, tuples and
dicts (dicts as association lists, preserving insertion order, which is the
iteration order `iteritems` exposes to the code). -/
inductive PyValue where
  | str (s : String)
  | int (n : Int)
  | bool (b : Bool)
  | tuple (xs : List PyValue)
  | pydict (ps : List (PyValue × PyValue))

mutual

/-- Python `repr` restricted to the value types above.  Strings are
rendered with single quotes (faithful for strings without quotes or escape
characters, which is the only kind the repository uses), booleans as
`True`/`False`, tuples and dicts in their canonical literal form. -/
def reprV : PyValue → String
  | .str s => "\x27" ++ s ++ "\x27"
  | .int n => toString n
  | .bool b => if b then "True" else "False"
  | .tuple [] => "()"
  | .tuple [x] => "(" ++ (reprV x ++ ",)")
  | .tuple (x :: y :: xs) => "(" ++ (reprV x ++ (", " ++ (reprVList (y :: xs) ++ ")")))
  | .pydict ps => "\x7b" ++ (reprVPairs ps ++ "\x7d")

/-- Comma-separated repr of tuple members. -/
def reprVList : List PyValue → String
  | [] => ""
  | [x] => reprV x
  | x :: y :: xs => reprV x ++ (", " ++ reprVList (y :: xs))

/-- Comma-separated repr of dict entries. -/
def reprVPairs : List (PyValue × PyValue) → String
  | [] => ""
  | [(k, v)] => reprV k ++ ": " ++ reprV v
  | (k, v) :: q :: ps => reprV k ++ ": " ++ reprV v ++ ", " ++ reprVPairs (q :: ps)

end

/-- Whether a value is a Python dict (`isinstance(value, dict)`). -/
def PyValue.isDict : PyValue → Bool
  | .pydict _ => true
  | _ => false

/-- The entries of a dict value, in iteration order. -/
def PyValue.dictPairs : PyValue → List (PyValue × PyValue)
  | .pydict ps => ps
  | _ => []

/-- Errors raised by the settings handler.  `settingsError` models
`plugit.exceptions.SettingsError`, `valueError` the built-in `ValueError`,
`assertionError` a failing `assert`, and `indexError` an out-of-range child
access (never reachable from grammatically valid trees). -/
inductive SErr where
  | settingsError (msg : String)
  | valueError (msg : String)
  | assertionError
  | indexError

/-! Node factories from settingshandler.py lines 24-32. -/

/-- `Newline()`: a NEWLINE leaf. -/
def Newline : PyTree := .leaf tokNEWLINE "\n" ""

/-- `Comma()`: a COMMA leaf. -/
def Comma : PyTree := .leaf tokCOMMA "," ""

/-- `Value(value, prefix)`: a STRING leaf carrying `repr(value)`. -/
def Value (v : PyValue) (pfx : String) : PyTree := .leaf tokSTRING (reprV v) pfx

/-- `AssignStatement(name, value)`: a fresh `expr_stmt` node
`name = repr(value)\n` with canonical single-space separators. -/
def AssignStatement (name : String) (v : PyValue) : PyTree :=
  .node symExprStmt
    [.leaf tokNAME name "", .leaf tokEQUAL "=" " ", Value v " ", Newline]

/-- `node.append_child(c)` restricted to composite nodes (the code only
appends to nodes). -/
def appendChild : PyTree → PyTree → PyTree
  | .node t cs, c => .node t (cs ++ [c])
  | .leaf t v p, _ => .leaf t v p

/-- Repeated `append_child`, one call per list element, in order. -/
def appendChildren : PyTree → List PyTree → PyTree
  | .node t cs, l => .node t (cs ++ l)
  | .leaf t v p, _ => .leaf t v p

/-- Replacement of the `i`-th child (models in-place mutation of an aliased
child node: the Python code mutates a node obtained from the locator, which
is the same object as `root.children[i].children[0]`). -/
def setChildAt : PyTree → Nat → PyTree → PyTree
  | .node t cs, i, c => .node t (cs.set i c)
  | .leaf t v p, _, _ => .leaf t v p

/-- `t.children[i]`, with a dummy default for the out-of-range case the
Python code would crash on (unreachable from the call sites modelled). -/
def getChildAt (t : PyTree) (i : Nat) : PyTree :=
  t.childrenOf.getD i (.node 0 [])

/-- `_find_whitespace`'s while loop: `ret` is overwritten with the prefix of
every sibling visited while walking towards the front of the list, and the
walk stops at the first COMMA token or at the front. -/
def find_whitespace_aux : List PyTree → String → String
  | [], ret => ret
  | l :: rest, ret =>
    if l.type = tokCOMMA then ret else find_whitespace_aux rest l.pfxOf

/-- `_find_whitespace(l)` where `l` is the last child of a container whose
child list is `cs`: starting from `l`'s previous sibling, walk backward
(hence the reversed dropLast) until a COMMA or the front is reached. -/
def find_whitespace (cs : List PyTree) : String :=
  find_whitespace_aux cs.dropLast.reverse ""

/-- Message of the ValueError raised by `_append_to_dict` for a non-dict
value (settingshandler.py lines 221-223). -/
def typeMismatchMsg (setting : String) (v : PyValue) : String :=
  "Can append only dict values to dict settings (setting \x27" ++ setting ++
    ("\x27 is a dict, value " ++ (reprV v ++ " is not)"))

/-- The quadruples `_append_to_dict` appends per dict entry: key leaf with
the captured prefix, a colon, the value leaf with a single-space prefix, and
a trailing comma. -/
def dictKids : List (PyValue × PyValue) → String → List PyTree
  | [], _ => []
  | (k, v) :: ps, pfx =>
    Value k pfx :: .leaf tokCOLON ":" "" :: Value v " " :: Comma :: dictKids ps pfx

/-- `_append_to_list(node, value, prefix)`: appends a value leaf and a
trailing comma. -/
def append_to_list (t : PyTree) (v : PyValue) (pfx : String) : PyTree :=
  appendChild (appendChild t (Value v pfx)) Comma

/-- `_append_to_dict(node, value, prefix, setting)`: rejects non-dict values
with a ValueError, otherwise appends one key/colon/value/comma quadruple per
entry of `value`, in iteration order. -/
def append_to_dict (t : PyTree) (v : PyValue) (pfx setting : String) :
    PyTree × Option SErr :=
  match v with
  | .pydict ps => (appendChildren t (dictKids ps pfx), none)
  | _ => (t, some (.valueError (typeMismatchMsg setting v)))

/-- Message of the SettingsError raised by `_append_to_node_expression` for
an unknown container node type (settingshandler.py lines 189-190). -/
def unknownContainerMsg (setting : String) (ctype : Nat) : String :=
  setting ++ (": unknown container type (" ++ (toString ctype ++
    "). Can append only to containers (dicts or lists)."))

/-- `_append_to_node_expression(container, value, setting)`: checks the
container node type, asserts the last child is a Leaf, captures the local
whitespace convention, appends a corrective comma when the container lacked
a trailing one, then dispatches on list versus dict.  Returns the updated
container with an optional error; on an error raised inside
`_append_to_dict` the corrective comma has already been appended, exactly as
in the Python code. -/
def append_to_node_expression (container : PyTree) (v : PyValue)
    (setting : String) : PyTree × Option SErr :=
  if ¬ (container.type = symTestlistGexp ∨ container.type = symListmaker ∨
      container.type = symDictsetmaker) then
    (container, some (.settingsError (unknownContainerMsg setting container.type)))
  else
    match container.childrenOf.getLast? with
    | none => (container, some .indexError)
    | some last =>
      if last.isNode then (container, some .assertionError)
      else
        let pfx := find_whitespace container.childrenOf
        let container' :=
          if last.type = tokCOMMA then container else appendChild container Comma
        if container.type = symTestlistGexp ∨ container.type = symListmaker then
          (append_to_list container' v pfx, none)
        else
          append_to_dict container' v pfx setting

/-- `_append_to_leaf_expression(atom, value, setting)`: inserts a fresh
empty `simple_stmt` node at child position 1 (directly after the opening
bracket), then populates that node according to the opening bracket kind.
For an opening bracket that is none of `[`, `(`, `{` the empty node stays
inserted and the function returns silently. -/
def append_to_leaf_expression (atom : PyTree) (v : PyValue)
    (setting : String) : PyTree × Option SErr :=
  match atom.childrenOf with
  | [] => (atom, some .indexError)
  | c0 :: rest =>
    if c0.type = tokLSQB ∨ c0.type = tokLPAR then
      (.node atom.type
        (c0 :: append_to_list (.node symSimpleStmt []) v "\n    " :: rest), none)
    else if c0.type = tokLBRACE then
      let r := append_to_dict (.node symSimpleStmt []) v "\n    " setting
      (.node atom.type (c0 :: r.1 :: rest), r.2)
    else
      (.node atom.type (c0 :: .node symSimpleStmt [] :: rest), none)

/-- Message of the SettingsError raised by `append_to_assignment_node` when
the third child of the assignment is not an atom (lines 166-168); the
message embeds `str(node)`, hence the statement's full source text. -/
def notContainerMsg (stmt : PyTree) : String :=
  "Not a container definition (expression\x27s third node is not an atom): " ++
    (stmt.render ++ "\nCan append only to containers (dicts or lists)")

/-- `node.children[0].value`, the setting name passed down by
`append_to_assignment_node`. -/
def settingName (stmt : PyTree) : String :=
  match stmt.childrenOf with
  | .leaf _ v _ :: _ => v
  | _ => ""

/-- `append_to_assignment_node(node, value)`: asserts the node is an
`expr_stmt`, requires its third child to be an atom, then dispatches on
whether `atom.children[1]` is a composite Node (multi-element container) or
a Leaf (empty or single-element container).  The updated statement node is
returned together with the optional error. -/
def append_to_assignment_node (stmt : PyTree) (v : PyValue) :
    PyTree × Option SErr :=
  if ¬ stmt.type = symExprStmt then (stmt, some .assertionError)
  else
    match stmt.childrenOf.get? 2 with
    | none => (stmt, some .indexError)
    | some atom =>
      if ¬ atom.type = symAtom then
        (stmt, some (.settingsError (notContainerMsg stmt)))
      else
        match atom.childrenOf.get? 1 with
        | none => (stmt, some .indexError)
        | some inner =>
          if inner.isNode then
            let r := append_to_node_expression inner v (settingName stmt)
            (setChildAt stmt 2 (setChildAt atom 1 r.1), r.2)
          else
            let r := append_to_leaf_expression atom v (settingName stmt)
            (setChildAt stmt 2 r.1, r.2)

/-! The assignment locator, `find_assignment_nodes` (lines 130-150).  The
lib2to3 pattern used there matches an `expr_stmt` node whose first child is
a NAME leaf with a value drawn from `names`, whose second child is an EQUAL
leaf with text `=`, and whose remaining children are arbitrary (a trailing
`WildcardPattern()` with min 0). -/

/-- The `lhs_pattern` match against the first child of a top-level
statement; returns the matched variable name. -/
def lhs_match (names : List String) (t : PyTree) : Option String :=
  match t with
  | .node ty (.leaf t1 v1 _ :: .leaf t2 v2 _ :: _) =>
    if ty = symExprStmt ∧ t1 = tokNAME ∧ v1 ∈ names ∧ t2 = tokEQUAL ∧ v2 = "="
    then some v1 else none
  | _ => none

/-- One iteration of the locator's loop: a top-level child is considered
only when it is a `simple_stmt`, and the pattern is run against its first
child. -/
def stmtMatch (names : List String) (stmt : PyTree) : Option String :=
  if stmt.type = symSimpleStmt then
    match stmt.childrenOf with
    | c0 :: _ => lhs_match names c0
    | [] => none
  else none

/-- The locator's loop over the top-level children, with the running index
and the dictionary built so far; a later match for the same name overwrites
an earlier one, as Python dict assignment does. -/
def find_aux (names : List String) :
    List PyTree → Nat → (String → Option Nat) → String → Option Nat
  | [], _, acc => acc
  | stmt :: rest, i, acc =>
    find_aux names rest (i + 1)
      (match stmtMatch names stmt with
       | some nm => fun n => if n = nm then some i else acc n
       | none => acc)

/-- `find_assignment_nodes(tree, names)` as a name-to-index dictionary: the
matched statement node itself is `tree.children[i].children[0]` for the
returned index `i`. -/
def find_assignment_nodes (tree : PyTree) (names : List String) :
    String → Option Nat :=
  find_aux names tree.childrenOf 0 (fun _ => none)

/-! The update session (`SettingsStringUpdater`, lines 35-93). -/

/-- Session state: the parsed tree and the change flag. -/
structure Updater where
  root : PyTree
  changed : Bool

/-- Message of the SettingsError for a duplicate create (lines 76-77). -/
def dupMsg (name : String) : String :=
  "Variable \x27" ++ (name ++ "\x27 already present in settings")

/-- Message of the SettingsError for a missing extend target (lines 86-87). -/
def missingMsg (name : String) : String :=
  "Variable \x27" ++ (name ++ "\x27 missing from settings")

/-- The `new_settings` loop of `update` (lines 74-79): each entry whose name
is already present aborts the call with a SettingsError, leaving earlier
entries applied; otherwise a fresh assignment statement is appended and the
change flag set. -/
def create_loop (dict : String → Option Nat) :
    Updater → List (String × PyValue) → Updater × Option SErr
  | st, [] => (st, none)
  | st, (name, v) :: rest =>
    if (dict name).isSome then (st, some (.settingsError (dupMsg name)))
    else create_loop dict ⟨appendChild st.root (AssignStatement name v), true⟩ rest

/-- The `append_settings` loop of `update` (lines 80-90): a missing name is
either created (when `create_if_missing`) or aborts with a SettingsError; a
located name has the value appended to its statement node in place.  An
error raised inside the append leaves the partially-mutated tree in the
session but does not set the change flag, exactly as in the Python code
(the `raise` happens before `self.changed = True`). -/
def append_loop (dict : String → Option Nat) (cim : Bool) :
    Updater → List (String × PyValue) → Updater × Option SErr
  | st, [] => (st, none)
  | st, (name, v) :: rest =>
    match dict name with
    | none =>
      if cim then
        append_loop dict cim ⟨appendChild st.root (AssignStatement name v), true⟩ rest
      else (st, some (.settingsError (missingMsg name)))
    | some i =>
      let stmt := getChildAt (getChildAt st.root i) 0
      let r := append_to_assignment_node stmt v
      let root' := setChildAt st.root i (setChildAt (getChildAt st.root i) 0 r.1)
      match r.2 with
      | some e => (⟨root', st.changed⟩, some e)
      | none => append_loop dict cim ⟨root', true⟩ rest

/-- `SettingsStringUpdater.update(new_settings, append_settings,
create_if_missing)`: the locator runs once over the union of the names, the
create batch runs first, then the append batch.  Dictionaries are passed as
association lists because Python 2 dict iteration order is an implementation
detail the code simply inherits. -/
def update (st : Updater) (new_settings append_settings : List (String × PyValue))
    (cim : Bool) : Updater × Option SErr :=
  let dict := find_assignment_nodes st.root
    (new_settings.map Prod.fst ++ append_settings.map Prod.fst)
  match create_loop dict st new_settings with
  | (st', some e) => (st', some e)
  | (st', none) => append_loop dict cim st' append_settings

/-- `SettingsStringUpdater.result`: `str(self.root)`. -/
def result (st : Updater) : String := st.root.render

/-- `SettingsFileUpdater.save(filename)` (lines 109-124).  The actual file
write is ordinary I/O outside the tree model; it is represented by the
second component: `none` means no write was performed, `some (fn, text)`
means `text` was written to file `fn`.  The first component is the returned
boolean. -/
def save (st : Updater) (selfFilename : String) (filename : Option String) :
    Bool × Option (String × String) :=
  if filename = none ∧ st.changed = false then (false, none)
  else (true, some (filename.getD selfFilename, result st))

/-! Modelled from the spec: the repository delegates parsing to
`lib2to3.pgen2.driver` and rendering of leaves to `lib2to3.pytree`, neither
of which is part of this repository's sources.  Section 4.1 of the spec
requires the parser to produce a lossless tree satisfying Invariant A
(every leaf carries its exact text plus the whitespace immediately
preceding it, and the depth-first concatenation of prefix + text
reproduces the input).  The model below realises exactly that contract:
it splits the input into maximal whitespace runs (becoming prefixes) and
maximal non-whitespace runs (becoming token texts). -/

/-- Whitespace characters that become leaf prefixes in the modelled
parser. -/
def isWsChar (c : Char) : Bool :=
  c = ' ' ∨ c = '\t' ∨ c = '\n' ∨ c = '\r'

/-- Modelled from the spec: the lexical layer of `parse`.  Produces the
(prefix, text) pairs of the leaves in order: each whitespace character
extends the prefix of the leaf that follows it, each non-whitespace
character extends the current token text. -/
def lexPairs : List Char → List (String × String)
  | [] => []
  | c :: cs =>
    if isWsChar c then
      match lexPairs cs with
      | [] => [(c.toString, "")]
      | (p, t) :: rs => (c.toString ++ p, t) :: rs
    else
      match lexPairs cs with
      | [] => [("", c.toString)]
      | (p, t) :: rs =>
        if p = "" then ("", c.toString ++ t) :: rs
        else ("", c.toString) :: (p, t) :: rs

/-- Modelled from the spec: `parse(text)` produces the lossless document
tree whose leaves carry the (prefix, text) pairs of the lexical layer. -/
def parse_string (s : String) : PyTree :=
  .node symFileInput ((lexPairs s.data).map (fun pt => .leaf tokNAME pt.2 pt.1))

/-- `SettingsStringUpdater.__init__(source)`: parse the source and start
with a clear change flag. -/
def SettingsStringUpdater_init (source : String) : Updater :=
  ⟨parse_string source, false⟩

/-! Concrete lib2to3 parse trees used as test fixtures.  Each is the tree
the lib2to3 driver produces for the source text named in its comment:
statements sit in `simple_stmt` wrappers holding the trailing NEWLINE, the
document ends with an ENDMARKER leaf, and bracketed containers are `atom`
nodes whose middle child is a composite maker node once the container holds
more than one token. -/

/-- Inner `testlist_gexp` node of `(\x27Neque\x27, \x27porro\x27,)`. -/
def tupInner : PyTree := .node symTestlistGexp
  [.leaf tokSTRING "\x27Neque\x27" "", .leaf tokCOMMA "," "",
   .leaf tokSTRING "\x27porro\x27" " ", .leaf tokCOMMA "," ""]

/-- Atom node of `(\x27Neque\x27, \x27porro\x27,)` with its leading space. -/
def tupAtom : PyTree := .node symAtom
  [.leaf tokLPAR "(" " ", tupInner, .leaf tokRPAR ")" ""]

/-- `expr_stmt` of `NONEMPTY_TUPLE = (\x27Neque\x27, \x27porro\x27,)`. -/
def tupStmt : PyTree := .node symExprStmt
  [.leaf tokNAME "NONEMPTY_TUPLE" "", .leaf tokEQUAL "=" " ", tupAtom]

/-- Document tree of `NONEMPTY_TUPLE = (\x27Neque\x27, \x27porro\x27,)\n`. -/
def tupRoot : PyTree := .node symFileInput
  [.node symSimpleStmt [tupStmt, .leaf tokNEWLINE "\n" ""],
   .leaf tokENDMARKER "" ""]

/-- Atom node of the single-element list `[\x27a\x27]`: the lone element is
`atom.children[1]`, a Leaf, so the code takes the leaf-expression path. -/
def sglAtom : PyTree := .node symAtom
  [.leaf tokLSQB "[" " ", .leaf tokSTRING "\x27a\x27" "", .leaf tokRSQB "]" ""]

/-- `expr_stmt` of `L = [\x27a\x27]`. -/
def sglStmt : PyTree := .node symExprStmt
  [.leaf tokNAME "L" "", .leaf tokEQUAL "=" " ", sglAtom]

/-- Atom node of the parenthesized scalar `(5)` (no comma, hence no inner
`testlist_gexp` node: the NUMBER leaf sits directly at `children[1]`). -/
def parAtom : PyTree := .node symAtom
  [.leaf tokLPAR "(" " ", .leaf tokNUMBER "5" "", .leaf tokRPAR ")" ""]

/-- `expr_stmt` of `X = (5)`: the value-expression is not a container
literal. -/
def parStmt : PyTree := .node symExprStmt
  [.leaf tokNAME "X" "", .leaf tokEQUAL "=" " ", parAtom]

/-- Inner `dictsetmaker` node of `\x7b\x27a\x27: [1]\x7d`: its last child is
the composite atom node of `[1]`, not a Leaf. -/
def dctInner : PyTree := .node symDictsetmaker
  [.leaf tokSTRING "\x27a\x27" "", .leaf tokCOLON ":" "",
   .node symAtom
     [.leaf tokLSQB "[" " ", .leaf tokNUMBER "1" "", .leaf tokRSQB "]" ""]]

/-- Atom node of `\x7b\x27a\x27: [1]\x7d`. -/
def dctAtom : PyTree := .node symAtom
  [.leaf tokLBRACE "\x7b" " ", dctInner, .leaf tokRBRACE "\x7d" ""]

/-- `expr_stmt` of `D = \x7b\x27a\x27: [1]\x7d`, a mapping-literal-valued
assignment whose last parse-tree child inside the braces is composite. -/
def dctStmt : PyTree := .node symExprStmt
  [.leaf tokNAME "D" "", .leaf tokEQUAL "=" " ", dctAtom]

/-- `expr_stmt` of the chained assignment `X = Y = 2`: lib2to3 flattens it
into five children. -/
def chainStmt : PyTree := .node symExprStmt
  [.leaf tokNAME "X" "", .leaf tokEQUAL "=" " ", .leaf tokNAME "Y" " ",
   .leaf tokEQUAL "=" " ", .leaf tokNUMBER "2" " "]

/-- Document tree of `X = Y = 2\n`. -/
def chainRoot : PyTree := .node symFileInput
  [.node symSimpleStmt [chainStmt, .leaf tokNEWLINE "\n" ""],
   .leaf tokENDMARKER "" ""]

/-- Inner `listmaker` node of `[\x27a\x27, [\x27b\x27]]`: the final element
is a nested container literal and there is no trailing comma, so the last
child is a composite Node. -/
def nstInner : PyTree := .node symListmaker
  [.leaf tokSTRING "\x27a\x27" "", .leaf tokCOMMA "," "",
   .node symAtom
     [.leaf tokLSQB "[" " ", .leaf tokSTRING "\x27b\x27" "", .leaf tokRSQB "]" ""]]

/-- `expr_stmt` of `X = [\x27a\x27, [\x27b\x27]]`. -/
def nstStmt : PyTree := .node symExprStmt
  [.leaf tokNAME "X" "", .leaf tokEQUAL "=" " ",
   .node symAtom [.leaf tokLSQB "[" " ", nstInner, .leaf tokRSQB "]" ""]]

/-- The children `_append_to_node_expression` appends after the optional
corrective comma: a value leaf plus comma for list/tuple containers, the
key/colon/value/comma quadruples for mappings. -/
def trailKids (ty : Nat) (v : PyValue) (pfx : String) : List PyTree :=
  if ty = symDictsetmaker then dictKids v.dictPairs pfx else [Value v pfx, Comma]

/-- List fixture for the witness: children of the listmaker of
`[\x27a\x27, \x27b\x27]` (two elements, no trailing comma). -/
def wCs : List PyTree :=
  [.leaf tokSTRING "\x27a\x27" "", .leaf tokCOMMA "," "",
   .leaf tokSTRING "\x27b\x27" " "]

/-- The whitespace-discovery rule as the spec words it: walking backward,
the first non-separator leaf encountered before the walk stops (at a comma
or at the container's start) contributes its prefix; if the walk stops
immediately, no prefix is captured. -/
def spec_first_non_separator : List PyTree → String
  | [] => ""
  | l :: _ => if l.type = tokCOMMA then "" else l.pfxOf

/-- Well-formedness of the backward walk's first two entries: in a
grammatical container, elements are separated by commas, so the walk never
sees two consecutive non-comma siblings. -/
def headAlternationOk : List PyTree → Bool
  | a :: b :: _ => (a.type == tokCOMMA) || (b.type == tokCOMMA)
  | _ => true

/-- Expected document tree after extending `NONEMPTY_TUPLE` with
`porro`: the same tree as `tupRoot` with a value leaf (single-space prefix,
copied from the existing elements) and a trailing comma appended to the
`testlist_gexp` node. -/
def tupRootAfter : PyTree := .node symFileInput
  [.node symSimpleStmt
    [.node symExprStmt
      [.leaf tokNAME "NONEMPTY_TUPLE" "", .leaf tokEQUAL "=" " ",
       .node symAtom
         [.leaf tokLPAR "(" " ",
          .node symTestlistGexp
            [.leaf tokSTRING "\x27Neque\x27" "", .leaf tokCOMMA "," "",
             .leaf tokSTRING "\x27porro\x27" " ", .leaf tokCOMMA "," "",
             .leaf tokSTRING "\x27porro\x27" " ", .leaf tokCOMMA "," ""],
          .leaf tokRPAR ")" ""]],
     .leaf tokNEWLINE "\n" ""],
   .leaf tokENDMARKER "" ""]

mutual

/-- The STRING-token leaves of a tree in depth-first order; on the fixture
documents these are exactly the container elements. -/
def stringLeafVals : PyTree → List String
  | .leaf t v _ => if t = tokSTRING then [v] else []
  | .node _ cs => stringLeafValsList cs

/-- STRING leaves of a sibling list, in order. -/
def stringLeafValsList : List PyTree → List String
  | [] => []
  | c :: cs => stringLeafVals c ++ stringLeafValsList cs

end

/-! General lemmas. -/

lemma renderList_append (a b : List PyTree) :
    renderList (a ++ b) = renderList a ++ renderList b := by
  induction a with
  | nil => simp [renderList, String.empty_append]
  | cons c a ih => simp [renderList, ih, String.append_assoc]

lemma char_toString_data (c : Char) : (Char.toString c).data = [c] := rfl

lemma lexPairs_render (cs : List Char) :
    (renderList ((lexPairs cs).map
      (fun pt => PyTree.leaf tokNAME pt.2 pt.1))).data = cs := by
  induction cs with
  | nil => rfl
  | cons c cs ih =>
    by_cases hw : isWsChar c = true
    · rcases h : lexPairs cs with _ | ⟨⟨p, t⟩, rs⟩
      · rw [h] at ih
        simp only [List.map_nil, renderList] at ih
        have hcs : cs = [] := by simpa using ih.symm
        subst hcs
        simp [lexPairs, hw, h, renderList, PyTree.render, String.data_append,
          char_toString_data]
      · rw [h] at ih
        simp only [List.map_cons, renderList, PyTree.render] at ih
        simp only [lexPairs, hw, if_true, h, List.map_cons, renderList, PyTree.render]
        rw [← ih]
        simp [String.data_append, List.append_assoc, char_toString_data]
    · rcases h : lexPairs cs with _ | ⟨⟨p, t⟩, rs⟩
      · rw [h] at ih
        simp only [List.map_nil, renderList] at ih
        have hcs : cs = [] := by simpa using ih.symm
        subst hcs
        simp [lexPairs, hw, h, renderList, PyTree.render, String.data_append,
          char_toString_data]
      · rw [h] at ih
        simp only [List.map_cons, renderList, PyTree.render] at ih
        by_cases hp : p = ""
        · subst hp
          simp only [lexPairs, hw, h, if_true, if_false, List.map_cons, renderList,
            PyTree.render, ite_true, Bool.false_eq_true, if_neg, reduceIte]
          rw [← ih]
          simp [String.data_append, List.append_assoc, String.empty_append,
            char_toString_data]
        · simp only [lexPairs, hw, h, List.map_cons, renderList, PyTree.render,
            Bool.false_eq_true, if_false, if_neg hp, reduceIte]
          rw [← ih]
          simp [String.data_append, List.append_assoc, String.empty_append,
            char_toString_data]

/-- C1: for every source text, building a session from it and rendering the
tree without any intervening update returns the original text
byte-for-byte: the depth-first concatenation of every leaf's prefix and
text reproduces the input exactly (render of parse is the identity). -/
theorem parse_render_roundtrip (s : String) :
    result (SettingsStringUpdater_init s) = s := by
  apply String.ext
  simpa [result, SettingsStringUpdater_init, parse_string, PyTree.render]
    using lexPairs_render s.data

/-- C10: on the assignment `X = [\x27a\x27, [\x27b\x27]]`, whose container's
last parse-tree child is a composite node (a nested list, no trailing
comma), the append operation fails with the bare assertion failure of
`assert isinstance(last_leaf, Leaf)` — leaving the tree untouched — and not
with any of the documented SettingsError/ValueError failures. -/
theorem composite_last_child_assertion :
    append_to_assignment_node nstStmt (.str "z") = (nstStmt, some SErr.assertionError) ∧
    (∀ m, SErr.assertionError ≠ SErr.settingsError m) ∧
    (∀ m, SErr.assertionError ≠ SErr.valueError m) := by
  refine ⟨rfl, ?_, ?_⟩ <;> intro m h <;> exact SErr.noConfusion h

/-- C2 counterexample: for the single-element list `L = [\x27a\x27]` (one
existing element, no trailing comma), appending `c` succeeds but the new
value is inserted at child position 1, before the existing element: the
rendered result is `L = [\n    \x27c\x27,\x27a\x27]`, and the container's
old child list is not a prefix of the new one, refuting the claim that only
new trailing children are added and every existing element keeps its
position. -/
theorem single_element_append_inserts_before :
    (append_to_assignment_node sglStmt (.str "c")).2 = none ∧
    (append_to_assignment_node sglStmt (.str "c")).1.render
      = "L = [\n    \x27c\x27,\x27a\x27]" ∧
    ¬ ∃ tail, (getChildAt (append_to_assignment_node sglStmt (.str "c")).1 2).childrenOf
        = sglAtom.childrenOf ++ tail := by
  refine ⟨rfl, rfl, ?_⟩
  rintro ⟨tail, h⟩
  have e1 : (getChildAt (append_to_assignment_node sglStmt (.str "c")).1 2).childrenOf
      = [.leaf tokLSQB "[" " ",
         .node symSimpleStmt [.leaf tokSTRING "\x27c\x27" "\n    ", .leaf tokCOMMA "," ""],
         .leaf tokSTRING "\x27a\x27" "", .leaf tokRSQB "]" ""] := rfl
  have e2 : sglAtom.childrenOf
      = [.leaf tokLSQB "[" " ", .leaf tokSTRING "\x27a\x27" "",
         .leaf tokRSQB "]" ""] := rfl
  rw [e1, e2] at h
  simp at h

/-- C2 (amended): for a container whose bracketed atom holds a composite
inner node — i.e. at least two existing elements, or one element followed
by a trailing separator — appending only adds new trailing children: the
old child list is preserved as a prefix, extended by at most one corrective
comma (exactly when the container lacked a trailing comma) followed by the
new value children, so every existing element keeps its source text and its
position and the rendered text of the container is the old text plus a
suffix.  For a container whose atom holds a single element and no trailing
separator the new value is instead inserted before the existing element
(see the counterexample). -/
theorem append_preserves_existing_multi (ty : Nat) (cs : List PyTree) (l : PyTree)
    (v : PyValue) (setting : String)
    (hty : ty = symTestlistGexp ∨ ty = symListmaker ∨ ty = symDictsetmaker)
    (hl : cs.getLast? = some l) (hleaf : l.isNode = false)
    (hd : ty = symDictsetmaker → v.isDict = true) :
    append_to_node_expression (.node ty cs) v setting
      = (.node ty (cs ++ ((if l.type = tokCOMMA then [] else [Comma]) ++
          trailKids ty v (find_whitespace cs))), none) ∧
    ∃ extra, ((append_to_node_expression (.node ty cs) v setting).1).render
      = (PyTree.render (.node ty cs)) ++ extra := by
  obtain ⟨lt, lv, lp, rfl⟩ : ∃ lt lv lp, l = .leaf lt lv lp := by
    cases l with
    | leaf a b c => exact ⟨a, b, c, rfl⟩
    | node a b => simp [PyTree.isNode] at hleaf
  have main : append_to_node_expression (.node ty cs) v setting
      = (.node ty (cs ++ ((if (PyTree.leaf lt lv lp).type = tokCOMMA then []
            else [Comma]) ++
          trailKids ty v (find_whitespace cs))), none) := by
    rcases hty with h1 | h2 | h3
    · subst h1
      by_cases hc : lt = tokCOMMA <;>
        simp [append_to_node_expression, PyTree.childrenOf, PyTree.type,
          PyTree.isNode, hl, hc, append_to_list, appendChild, trailKids,
          symTestlistGexp, symListmaker, symDictsetmaker, Comma, find_whitespace]
    · subst h2
      by_cases hc : lt = tokCOMMA <;>
        simp [append_to_node_expression, PyTree.childrenOf, PyTree.type,
          PyTree.isNode, hl, hc, append_to_list, appendChild, trailKids,
          symTestlistGexp, symListmaker, symDictsetmaker, Comma, find_whitespace]
    · subst h3
      obtain ⟨ps, rfl⟩ : ∃ ps, v = .pydict ps := by
        cases v <;> simp_all [PyValue.isDict]
      by_cases hc : lt = tokCOMMA <;>
        simp [append_to_node_expression, PyTree.childrenOf, PyTree.type,
          PyTree.isNode, hl, hc, append_to_dict, appendChildren, appendChild,
          trailKids, PyValue.dictPairs, symTestlistGexp, symListmaker,
          symDictsetmaker, Comma, find_whitespace]
  refine ⟨main, ?_⟩
  rw [main]
  exact ⟨renderList ((if (PyTree.leaf lt lv lp).type = tokCOMMA then []
      else [Comma]) ++ trailKids ty v (find_whitespace cs)),
    by simp [PyTree.render, renderList_append]⟩

/-- C2 witness: the amended theorem applied to the concrete two-element
list `[\x27a\x27, \x27b\x27]`: appending `c` yields the old children plus a
corrective comma, the new value leaf and a trailing comma. -/
theorem append_preserves_existing_multi_witness :
    append_to_node_expression (.node symListmaker wCs) (.str "c") "L"
      = (.node symListmaker (wCs ++ [Comma, Value (.str "c") "", Comma]), none) := by
  have h := (append_preserves_existing_multi symListmaker wCs
    (.leaf tokSTRING "\x27b\x27" " ") (.str "c") "L"
    (Or.inr (Or.inl rfl)) rfl rfl (fun hh => absurd hh (by decide))).1
  simpa [trailKids, find_whitespace, wCs, find_whitespace_aux, PyTree.type,
    PyTree.pfxOf, Value] using h

/-- C3: the prefix for newly inserted value leaves is discovered by walking
backward from the container's last child until a comma or the container's
start, capturing the prefix of the (unique, by comma-separation) non-comma
leaf encountered — the code's overwrite loop agrees with that description
whenever the walk never meets two consecutive non-comma siblings; and on
the concrete source `NONEMPTY_TUPLE = (\x27Neque\x27, \x27porro\x27,)`
extending with `porro` yields exactly three elements
`(\x27Neque\x27, \x27porro\x27, \x27porro\x27,)` with the original two
elements' surrounding whitespace byte-identical. -/
theorem find_whitespace_spec_and_tuple_scenario :
    (∀ rev : List PyTree, headAlternationOk rev = true →
      find_whitespace_aux rev "" = spec_first_non_separator rev) ∧
    update ⟨tupRoot, false⟩ [] [("NONEMPTY_TUPLE", PyValue.str "porro")] false
      = (⟨tupRootAfter, true⟩, none) ∧
    result ⟨tupRootAfter, true⟩
      = "NONEMPTY_TUPLE = (\x27Neque\x27, \x27porro\x27, \x27porro\x27,)\n" ∧
    stringLeafVals tupRootAfter
      = ["\x27Neque\x27", "\x27porro\x27", "\x27porro\x27"] := by
  refine ⟨?_, rfl, rfl, rfl⟩
  intro rev h
  match rev with
  | [] => rfl
  | [a] =>
    by_cases ha : a.type = tokCOMMA <;>
      simp [find_whitespace_aux, spec_first_non_separator, ha]
  | a :: b :: rest =>
    by_cases ha : a.type = tokCOMMA
    · simp [find_whitespace_aux, spec_first_non_separator, ha]
    · have hb : b.type = tokCOMMA := by
        simpa [headAlternationOk, ha] using h
      simp [find_whitespace_aux, spec_first_non_separator, ha, hb]

/-- C3 witness: the whitespace walk applied to the reversed leading
siblings of the fixture tuple's maker node captures the single-space
prefix of the element nearest the trailing comma. -/
theorem find_whitespace_spec_and_tuple_scenario_witness :
    find_whitespace_aux
      [.leaf tokSTRING "\x27porro\x27" " ", .leaf tokCOMMA "," "",
       .leaf tokSTRING "\x27Neque\x27" ""] "" = " " := by
  have h := find_whitespace_spec_and_tuple_scenario.1
    [.leaf tokSTRING "\x27porro\x27" " ", .leaf tokCOMMA "," "",
     .leaf tokSTRING "\x27Neque\x27" ""] (by decide)
  simpa [spec_first_non_separator, PyTree.type, PyTree.pfxOf] using h

lemma append_to_dict_not_dict (t : PyTree) (v : PyValue) (pfx setting : String)
    (hv : v.isDict = false) :
    append_to_dict t v pfx setting
      = (t, some (.valueError (typeMismatchMsg setting v))) := by
  cases v <;> simp_all [append_to_dict, PyValue.isDict]

/-- C4 counterexample: the mapping literal `D = \x7b\x27a\x27: [1]\x7d`
(whose last child inside the braces is a composite node) extended with the
non-mapping value `x` fails with the bare assertion error, not with the
ValueError that models TypeMismatchError. -/
theorem mapping_composite_last_assertion :
    (append_to_assignment_node dctStmt (.str "x")).2 = some SErr.assertionError ∧
    ∀ m, SErr.assertionError ≠ SErr.valueError m :=
  ⟨rfl, fun _ h => SErr.noConfusion h⟩

/-- C4 (amended): extending a mapping-literal assignment with a non-mapping
value fails with the ValueError modelling TypeMismatchError — whose message
names the setting — provided the brace contents' last parse-tree child is
an atomic leaf (multi-entry mapping, first conjunct) or the brace contents
are a single leaf / empty (second conjunct); when the last child is a
composite node the assertion failure of C10 preempts the type check (see
the counterexample). -/
theorem mapping_type_mismatch_error (name np ep bp : String) (tl : List PyTree)
    (v : PyValue) (hv : v.isDict = false) :
    (∀ (cs rest : List PyTree) (lt : Nat) (lv lp : String),
      cs.getLast? = some (.leaf lt lv lp) →
      (append_to_assignment_node
        (.node symExprStmt (.leaf tokNAME name np :: .leaf tokEQUAL "=" ep ::
          .node symAtom (.leaf tokLBRACE "\x7b" bp ::
            .node symDictsetmaker cs :: rest) :: tl)) v).2
        = some (.valueError (typeMismatchMsg name v))) ∧
    (∀ (rest : List PyTree) (t2 : Nat) (v2 p2 : String),
      (append_to_assignment_node
        (.node symExprStmt (.leaf tokNAME name np :: .leaf tokEQUAL "=" ep ::
          .node symAtom (.leaf tokLBRACE "\x7b" bp ::
            .leaf t2 v2 p2 :: rest) :: tl)) v).2
        = some (.valueError (typeMismatchMsg name v))) ∧
    ∃ pre post, typeMismatchMsg name v = pre ++ (name ++ post) := by
  refine ⟨?_, ?_, ?_⟩
  · intro cs rest lt lv lp hcl
    by_cases hc : lt = tokCOMMA <;>
      simp [append_to_assignment_node, List.get?, PyTree.type, PyTree.childrenOf,
        PyTree.isNode, settingName, append_to_node_expression, hcl, hc,
        append_to_dict_not_dict, hv, symExprStmt, symAtom, symTestlistGexp,
        symListmaker, symDictsetmaker]
  · intro rest t2 v2 p2
    simp [append_to_assignment_node, List.get?, PyTree.type, PyTree.childrenOf,
      PyTree.isNode, settingName, append_to_leaf_expression,
      append_to_dict_not_dict, hv, symExprStmt, symAtom, tokLBRACE, tokLSQB,
      tokLPAR]
  · exact ⟨"Can append only dict values to dict settings (setting \x27",
      "\x27 is a dict, value " ++ (reprV v ++ " is not)"),
      by simp [typeMismatchMsg, String.append_assoc]⟩

/-- C4 witness: the amended theorem at the two-entry mapping
`\x7b\x27k\x27: \x27v\x27,\x7d` (atomic trailing comma) with the scalar
value `x`. -/
theorem mapping_type_mismatch_error_witness :
    (append_to_assignment_node
      (.node symExprStmt [.leaf tokNAME "D2" "", .leaf tokEQUAL "=" " ",
        .node symAtom [.leaf tokLBRACE "\x7b" " ",
          .node symDictsetmaker
            [.leaf tokSTRING "\x27k\x27" "", .leaf tokCOLON ":" "",
             .leaf tokSTRING "\x27v\x27" " ", .leaf tokCOMMA "," ""],
          .leaf tokRBRACE "\x7d" ""]]) (.str "x")).2
      = some (.valueError (typeMismatchMsg "D2" (.str "x"))) := by
  have h := (mapping_type_mismatch_error "D2" "" " " " "
    [] (.str "x") rfl).1
    [.leaf tokSTRING "\x27k\x27" "", .leaf tokCOLON ":" "",
     .leaf tokSTRING "\x27v\x27" " ", .leaf tokCOMMA "," ""]
    [.leaf tokRBRACE "\x7d" ""] tokCOMMA "," "" rfl
  simpa using h

/-- C5 counterexample: for `X = (5)` — a parenthesized scalar, not a
container literal — the append operation does not fail at all: it succeeds
and turns the value into a tuple, rendering
`X = (\n    \x27v\x27,5)`, refuting the claim that every non-container
value-expression is rejected with the SettingsError modelling
NotAContainerError. -/
theorem paren_scalar_append_no_error :
    (append_to_assignment_node parStmt (.str "v")).2 = none ∧
    (append_to_assignment_node parStmt (.str "v")).1.render
      = "X = (\n    \x27v\x27,5)" :=
  ⟨rfl, rfl⟩

/-- C5 (amended): the append operation fails with the SettingsError
modelling NotAContainerError — whose message names the offending identifier
(via the statement's own source text, or directly) — when the assignment's
third child is not an atom node at all (first conjunct), or when the
bracketed atom's composite inner node is none of the recognized container
makers (second conjunct).  A bracketed atom whose contents are a single
non-container leaf (for example a parenthesized scalar) is not rejected:
the code appends to it as if it were a container (see the
counterexample). -/
theorem non_container_error (name np ep : String) (v : PyValue) :
    (∀ (third : PyTree) (tl : List PyTree), third.type ≠ symAtom →
      append_to_assignment_node
        (.node symExprStmt (.leaf tokNAME name np :: .leaf tokEQUAL "=" ep ::
          third :: tl)) v
        = (.node symExprStmt (.leaf tokNAME name np :: .leaf tokEQUAL "=" ep ::
            third :: tl),
           some (.settingsError (notContainerMsg
             (.node symExprStmt (.leaf tokNAME name np :: .leaf tokEQUAL "=" ep ::
               third :: tl))))) ∧
      ∃ pre post, notContainerMsg
          (.node symExprStmt (.leaf tokNAME name np :: .leaf tokEQUAL "=" ep ::
            third :: tl)) = pre ++ (name ++ post)) ∧
    (∀ (bp b0v : String) (b0t ity : Nat) (ics rest tl : List PyTree),
      ity ≠ symTestlistGexp → ity ≠ symListmaker → ity ≠ symDictsetmaker →
      (append_to_assignment_node
        (.node symExprStmt (.leaf tokNAME name np :: .leaf tokEQUAL "=" ep ::
          .node symAtom (.leaf b0t b0v bp :: .node ity ics :: rest) :: tl)) v).2
        = some (.settingsError (unknownContainerMsg name ity)) ∧
      ∃ post2, unknownContainerMsg name ity = name ++ post2) := by
  constructor
  · intro third tl hna
    constructor
    · cases third <;>
        (simp only [PyTree.type] at hna
         simp [append_to_assignment_node, List.get?, PyTree.type, hna])
    · exact ⟨"Not a container definition (expression\x27s third node is not an atom): "
          ++ np,
        ep ++ ("=" ++ (renderList (third :: tl)
          ++ "\nCan append only to containers (dicts or lists)")),
        by simp [notContainerMsg, PyTree.render, renderList, String.append_assoc]⟩
  · intro bp b0v b0t ity ics rest tl h1 h2 h3
    constructor
    · simp [append_to_assignment_node, List.get?, PyTree.type, PyTree.childrenOf,
        PyTree.isNode, settingName, append_to_node_expression, h1, h2, h3,
        symExprStmt, symAtom]
    · exact ⟨": unknown container type (" ++ (toString ity ++
        "). Can append only to containers (dicts or lists)."), rfl⟩

/-- C5 witness: the amended theorem at the scalar assignment `X = 5` (third
child a NUMBER leaf) and at `X = ((1, 2))` (atom nested directly inside an
atom, an unrecognized inner node type). -/
theorem non_container_error_witness :
    (append_to_assignment_node
      (.node symExprStmt [.leaf tokNAME "X" "", .leaf tokEQUAL "=" " ",
        .leaf tokNUMBER "5" " "]) (.str "v")).2
      = some (.settingsError (notContainerMsg
          (.node symExprStmt [.leaf tokNAME "X" "", .leaf tokEQUAL "=" " ",
            .leaf tokNUMBER "5" " "]))) ∧
    (append_to_assignment_node
      (.node symExprStmt [.leaf tokNAME "X" "", .leaf tokEQUAL "=" " ",
        .node symAtom [.leaf tokLPAR "(" " ",
          .node symAtom [.leaf tokLPAR "(" "", .leaf tokNUMBER "1" "",
            .leaf tokRPAR ")" ""], .leaf tokRPAR ")" ""]]) (.str "v")).2
      = some (.settingsError (unknownContainerMsg "X" symAtom)) := by
  constructor
  · have h := ((non_container_error "X" "" " " (.str "v")).1
      (.leaf tokNUMBER "5" " ") [] (by decide)).1
    simpa using congrArg Prod.snd h
  · have h := ((non_container_error "X" "" " " (.str "v")).2
      " " "(" tokLPAR symAtom
      [.leaf tokLPAR "(" "", .leaf tokNUMBER "1" "", .leaf tokRPAR ")" ""]
      [.leaf tokRPAR ")" ""] [] (by decide) (by decide) (by decide)).1
    simpa using h

lemma AssignStatement_render (name : String) (v : PyValue) :
    (AssignStatement name v).render = name ++ (" = " ++ (reprV v ++ "\n")) := by
  have h2 : (" =" : String) ++ (" " ++ (reprV v ++ "\n"))
      = " = " ++ (reprV v ++ "\n") := by
    rw [← String.append_assoc]
    exact congrArg (fun z => z ++ (reprV v ++ "\n"))
      (by rfl : (" =" ++ " " : String) = " = ")
  simp [AssignStatement, PyTree.render, renderList, Value, Newline, h2,
    String.append_assoc, String.empty_append, String.append_empty]

lemma create_loop_ok (dict : String → Option Nat) (ty : Nat) (cs : List PyTree)
    (ch : Bool) (pre : List (String × PyValue))
    (h : ∀ p ∈ pre, dict p.1 = none) :
    create_loop dict ⟨.node ty cs, ch⟩ pre
      = (⟨.node ty (cs ++ pre.map (fun p => AssignStatement p.1 p.2)),
          ch || !pre.isEmpty⟩, none) := by
  induction pre generalizing cs ch with
  | nil => simp [create_loop]
  | cons p rest ih =>
    obtain ⟨name, v⟩ := p
    have hp : dict name = none := h (name, v) (by simp)
    have hr : ∀ q ∈ rest, dict q.1 = none :=
      fun q hq => h q (List.mem_cons_of_mem _ hq)
    simp only [create_loop, hp, Option.isSome_none, Bool.false_eq_true, if_false,
      appendChild, reduceIte]
    rw [ih (cs ++ [AssignStatement name v]) true hr]
    simp [List.append_assoc]

lemma create_loop_append (dict : String → Option Nat) (st : Updater)
    (l1 l2 : List (String × PyValue)) :
    create_loop dict st (l1 ++ l2)
      = match create_loop dict st l1 with
        | (st', none) => create_loop dict st' l2
        | (st', some e) => (st', some e) := by
  induction l1 generalizing st with
  | nil => simp [create_loop]
  | cons p rest ih =>
    obtain ⟨name, v⟩ := p
    by_cases hp : (dict name).isSome <;> simp [create_loop, hp, ih]

/-- C6: a create entry whose name already has a matching top-level
assignment aborts the call with the SettingsError modelling
DuplicateSettingError; the create entries processed before it stay applied
(the corresponding statements remain appended — no rollback), and the
pre-existing text, including the statement for the duplicated name, is
preserved verbatim as a prefix of the rendered result. -/
theorem duplicate_create_partial_application
    (ty : Nat) (cs : List PyTree) (ch cim : Bool)
    (pre post app : List (String × PyValue)) (name : String) (v : PyValue)
    (hdup : (find_assignment_nodes (.node ty cs)
      (((pre ++ (name, v) :: post).map Prod.fst) ++ app.map Prod.fst) name).isSome
        = true)
    (hpre : ∀ p ∈ pre, find_assignment_nodes (.node ty cs)
      (((pre ++ (name, v) :: post).map Prod.fst) ++ app.map Prod.fst) p.1 = none) :
    update ⟨.node ty cs, ch⟩ (pre ++ (name, v) :: post) app cim
      = (⟨.node ty (cs ++ pre.map (fun p => AssignStatement p.1 p.2)),
          ch || !pre.isEmpty⟩,
         some (.settingsError (dupMsg name))) ∧
    (update ⟨.node ty cs, ch⟩ (pre ++ (name, v) :: post) app cim).1.root.render
      = PyTree.render (.node ty cs)
        ++ renderList (pre.map (fun p => AssignStatement p.1 p.2)) := by
  have hmain : update ⟨.node ty cs, ch⟩ (pre ++ (name, v) :: post) app cim
      = (⟨.node ty (cs ++ pre.map (fun p => AssignStatement p.1 p.2)),
          ch || !pre.isEmpty⟩,
         some (.settingsError (dupMsg name))) := by
    simp only [update, List.map_append, List.map_cons, List.append_assoc,
      List.cons_append]
    simp only [List.map_append, List.map_cons, List.append_assoc,
      List.cons_append] at hdup hpre
    rw [create_loop_append, create_loop_ok _ ty cs ch pre hpre]
    simp [create_loop, hdup]
  refine ⟨hmain, ?_⟩
  rw [hmain]
  simp [PyTree.render, renderList_append]

/-- C6 witness: the theorem applied to the fixture document, creating the
already-present name `NONEMPTY_TUPLE` with an empty preceding batch. -/
theorem duplicate_create_partial_application_witness :
    update ⟨.node symFileInput
        [.node symSimpleStmt [tupStmt, .leaf tokNEWLINE "\n" ""],
         .leaf tokENDMARKER "" ""], false⟩
      [("NONEMPTY_TUPLE", PyValue.int 1)] [] false
      = (⟨.node symFileInput
          [.node symSimpleStmt [tupStmt, .leaf tokNEWLINE "\n" ""],
           .leaf tokENDMARKER "" ""], false⟩,
         some (.settingsError (dupMsg "NONEMPTY_TUPLE"))) := by
  have h := (duplicate_create_partial_application symFileInput
    [.node symSimpleStmt [tupStmt, .leaf tokNEWLINE "\n" ""],
     .leaf tokENDMARKER "" ""] false false [] [] []
    "NONEMPTY_TUPLE" (.int 1) rfl (by simp)).1
  simpa using h

/-- C7: an extend entry for a name with no matching top-level assignment
fails with the SettingsError modelling MissingSettingError when
create_if_missing is false; with create_if_missing true it behaves as a
create, appending a fresh well-formed assignment statement
`name = repr(value)` (plus newline) to the end of the document. -/
theorem missing_setting_behavior (ty : Nat) (cs : List PyTree) (ch : Bool)
    (name : String) (v : PyValue)
    (hmiss : find_assignment_nodes (.node ty cs) [name] name = none) :
    update ⟨.node ty cs, ch⟩ [] [(name, v)] false
      = (⟨.node ty cs, ch⟩, some (.settingsError (missingMsg name))) ∧
    update ⟨.node ty cs, ch⟩ [] [(name, v)] true
      = (⟨.node ty (cs ++ [AssignStatement name v]), true⟩, none) ∧
    (update ⟨.node ty cs, ch⟩ [] [(name, v)] true).1.root.render
      = PyTree.render (.node ty cs) ++ (name ++ (" = " ++ (reprV v ++ "\n"))) := by
  have h1 : update ⟨.node ty cs, ch⟩ [] [(name, v)] false
      = (⟨.node ty cs, ch⟩, some (.settingsError (missingMsg name))) := by
    simp [update, create_loop, append_loop, hmiss]
  have h2 : update ⟨.node ty cs, ch⟩ [] [(name, v)] true
      = (⟨.node ty (cs ++ [AssignStatement name v]), true⟩, none) := by
    simp [update, create_loop, append_loop, hmiss, appendChild]
  refine ⟨h1, h2, ?_⟩
  rw [h2]
  show (PyTree.node ty (cs ++ [AssignStatement name v])).render = _
  have h3 : (PyTree.node ty (cs ++ [AssignStatement name v])).render
      = renderList cs ++ ((AssignStatement name v).render ++ "") := by
    rw [show (PyTree.node ty (cs ++ [AssignStatement name v])).render
        = renderList (cs ++ [AssignStatement name v]) from rfl, renderList_append]
    rfl
  rw [h3, String.append_empty, AssignStatement_render]
  rfl

/-- C7 witness: the theorem applied to an empty document and the absent
name `NEW`: create_if_missing false fails, true creates `NEW = 7`. -/
theorem missing_setting_behavior_witness :
    update ⟨.node symFileInput [], false⟩ [] [("NEW", PyValue.int 7)] false
      = (⟨.node symFileInput [], false⟩,
         some (.settingsError (missingMsg "NEW"))) ∧
    update ⟨.node symFileInput [], false⟩ [] [("NEW", PyValue.int 7)] true
      = (⟨.node symFileInput [AssignStatement "NEW" (.int 7)], true⟩, none) := by
  have h := missing_setting_behavior symFileInput [] false "NEW" (.int 7) rfl
  exact ⟨h.1, by simpa using h.2.1⟩

lemma lhs_match_sound (names : List String) (t : PyTree) (n : String)
    (h : lhs_match names t = some n) :
    t.type = symExprStmt ∧ ∃ np ep kids, t.childrenOf
      = .leaf tokNAME n np :: .leaf tokEQUAL "=" ep :: kids ∧ n ∈ names := by
  cases t with
  | leaf a b c => simp [lhs_match] at h
  | node ty cs =>
    rcases cs with _ | ⟨c0, rest0⟩
    · simp [lhs_match] at h
    · rcases rest0 with _ | ⟨c1, rest⟩
      · cases c0 <;> simp [lhs_match] at h
      · cases c0 with
        | node a b => simp [lhs_match] at h
        | leaf t1 v1 p1 =>
          cases c1 with
          | node a b => simp [lhs_match] at h
          | leaf t2 v2 p2 =>
            simp only [lhs_match] at h
            by_cases hc : ty = symExprStmt ∧ t1 = tokNAME ∧ v1 ∈ names ∧
                t2 = tokEQUAL ∧ v2 = "="
            · rw [if_pos hc] at h
              obtain ⟨he, ht1, hv1, ht2, hv2⟩ := hc
              obtain rfl : v1 = n := Option.some.inj h
              subst he
              subst ht1
              subst ht2
              subst hv2
              exact ⟨rfl, p1, p2, rest, rfl, hv1⟩
            · rw [if_neg hc] at h
              exact absurd h (by simp)

lemma stmtMatch_sound (names : List String) (stmt : PyTree) (n : String)
    (h : stmtMatch names stmt = some n) :
    stmt.type = symSimpleStmt ∧
      ∃ c0 crest, stmt.childrenOf = c0 :: crest ∧ lhs_match names c0 = some n := by
  unfold stmtMatch at h
  by_cases hs : stmt.type = symSimpleStmt
  · rw [if_pos hs] at h
    rcases hcs : stmt.childrenOf with _ | ⟨c0, crest⟩
    · rw [hcs] at h
      exact absurd h (by simp)
    · rw [hcs] at h
      exact ⟨hs, c0, crest, rfl, h⟩
  · rw [if_neg hs] at h
    exact absurd h (by simp)

lemma find_aux_sound (names : List String) (l : List PyTree) :
    ∀ (i0 : Nat) (acc : String → Option Nat) (name : String) (i : Nat),
    find_aux names l i0 acc name = some i →
    acc name = some i ∨
      ∃ k stmt, l.get? k = some stmt ∧ i = i0 + k ∧
        stmtMatch names stmt = some name := by
  induction l with
  | nil => intro i0 acc name i h; exact Or.inl h
  | cons stmt rest ih =>
    intro i0 acc name i h
    rcases hm2 : stmtMatch names stmt with _ | nm
    · simp only [find_aux, hm2] at h
      rcases ih (i0 + 1) acc name i h with hacc | ⟨k, stmt', hget, hik, hm⟩
      · exact Or.inl hacc
      · exact Or.inr ⟨k + 1, stmt', hget, by omega, hm⟩
    · simp only [find_aux, hm2] at h
      rcases ih (i0 + 1) _ name i h with hacc | ⟨k, stmt', hget, hik, hm⟩
      · have hacc' : (if name = nm then some i0 else acc name) = some i := hacc
        by_cases hn : name = nm
        · rw [if_pos hn] at hacc'
          have hi : i = i0 := (Option.some.inj hacc').symm
          refine Or.inr ⟨0, stmt, rfl, by omega, ?_⟩
          rw [hm2, hn]
        · rw [if_neg hn] at hacc'
          exact Or.inl hacc'
      · exact Or.inr ⟨k + 1, stmt', hget, by omega, hm⟩

/-- C8 (amended): the locator reports a top-level statement for a name only
if that statement is a `simple_stmt` whose first child is an `expr_stmt`
whose first two children are exactly the identifier leaf for that name and
an `=` leaf; the remaining children are unconstrained — a single
value-expression is the common case, but a chained assignment
`X = Y = 2` (five children) is also reported (see the counterexample). -/
theorem locator_shape_soundness (ty : Nat) (cs : List PyTree) (names : List String)
    (name : String) (i : Nat)
    (h : find_assignment_nodes (.node ty cs) names name = some i) :
    ∃ stmt, cs.get? i = some stmt ∧ stmt.type = symSimpleStmt ∧
      ∃ e erest, stmt.childrenOf = e :: erest ∧ e.type = symExprStmt ∧
        ∃ np ep kids, e.childrenOf
          = .leaf tokNAME name np :: .leaf tokEQUAL "=" ep :: kids ∧
          name ∈ names := by
  have h0 := find_aux_sound names cs 0 (fun _ => none) name i h
  rcases h0 with hacc | ⟨k, stmt, hget, hik, hm⟩
  · exact absurd hacc (by simp)
  · obtain ⟨hs, c0, crest, hcs, hl⟩ := stmtMatch_sound names stmt name hm
    obtain ⟨he, np, ep, kids, hck, hmem⟩ := lhs_match_sound names c0 name hl
    refine ⟨stmt, ?_, hs, c0, crest, hcs, he, np, ep, kids, hck, hmem⟩
    rw [hik, Nat.zero_add]
    exact hget

/-- C8 counterexample: the chained assignment `X = Y = 2` is reported by
the locator for `X`, yet its statement node has five children — not the
exact `identifier, =, value-expression` three-child shape the claim allows,
so a statement of another shape is reported as an assignment candidate. -/
theorem chained_assignment_located :
    find_assignment_nodes chainRoot ["X"] "X" = some 0 ∧
    (getChildAt (getChildAt chainRoot 0) 0).childrenOf.length = 5 ∧
    ¬ ∃ a b c : PyTree, (getChildAt (getChildAt chainRoot 0) 0).childrenOf
        = [a, b, c] := by
  refine ⟨rfl, rfl, ?_⟩
  rintro ⟨a, b, c, h⟩
  rw [show (getChildAt (getChildAt chainRoot 0) 0).childrenOf
      = [.leaf tokNAME "X" "", .leaf tokEQUAL "=" " ", .leaf tokNAME "Y" " ",
         .leaf tokEQUAL "=" " ", .leaf tokNUMBER "2" " "] from rfl] at h
  simp at h

/-- C8 witness: the soundness theorem applied to the chained-assignment
document, where the locator reports index 0 for `X`. -/
theorem locator_shape_soundness_witness :
    ∃ stmt, [(.node symSimpleStmt [chainStmt, .leaf tokNEWLINE "\n" ""] : PyTree),
        .leaf tokENDMARKER "" ""].get? 0 = some stmt ∧
      stmt.type = symSimpleStmt ∧
      ∃ e erest, stmt.childrenOf = e :: erest ∧ e.type = symExprStmt ∧
        ∃ np ep kids, e.childrenOf
          = .leaf tokNAME "X" np :: .leaf tokEQUAL "=" ep :: kids ∧
          "X" ∈ ["X"] :=
  locator_shape_soundness symFileInput
    [.node symSimpleStmt [chainStmt, .leaf tokNEWLINE "\n" ""],
     .leaf tokENDMARKER "" ""] ["X"] "X" 0 rfl

/-- C9: save returns false and writes nothing when no mutation has been
applied and no explicit destination is given; otherwise it writes the
current rendered text — to the explicit destination when given, else to the
original source path — and returns true. -/
theorem save_behavior (st : Updater) (orig : String) (dest : Option String) :
    (dest = none → st.changed = false → save st orig dest = (false, none)) ∧
    (st.changed = true → save st orig none = (true, some (orig, result st))) ∧
    (∀ d, save st orig (some d) = (true, some (d, result st))) := by
  refine ⟨?_, ?_, ?_⟩
  · rintro rfl hch
    simp [save, hch]
  · intro hch
    simp [save, hch]
  · intro d
    simp [save]

/-- C9 witness: the theorem at a concrete session: unmodified with no
destination nothing is written and false returned; modified, the rendered
text goes to the original path and true is returned. -/
theorem save_behavior_witness :
    save ⟨.node symFileInput [], false⟩ "settings.py" none = (false, none) ∧
    save ⟨.node symFileInput [], true⟩ "settings.py" none
      = (true, some ("settings.py", result ⟨.node symFileInput [], true⟩)) :=
  ⟨(save_behavior ⟨.node symFileInput [], false⟩ "settings.py" none).1 rfl rfl,
   (save_behavior ⟨.node symFileInput [], true⟩ "settings.py" none).2.1 rfl⟩

end Plugit
